import Mathlib

/-!
Verification of the serial-framing-protocol core: a shallow embedding of the
CRC engine (src/crc.rs), the framing writer and raw packet parser
(src/rawpacket.rs), and the link engine (src/lib.rs), with theorems checking
the natural-language specification against the embedded code.

Machine integers are modelled as `Nat` with explicit masking where the Rust
code relies on fixed-width (`u8`/`u16`) wrap-around semantics.
-/

namespace SFP

/-! ### CRC engine, from src/crc.rs -/

def CRC_INIT : Nat := 0xffff

def CRC_GOOD : Nat := 0xf0b8

/-- `Crc::accum`: the byte-mix recurrence on the 16-bit accumulator.
The argument byte is a `u8`, modelled by masking with `0xff`; all
16-bit intermediate results are masked with `0xffff`. -/
def crcAccum (v b : Nat) : Nat :=
  let b0 := b &&& 0xff
  let b1 := (b0 ^^^ (v &&& 0xff)) &&& 0xff
  let b2 := (b1 ^^^ (b1 <<< 4)) &&& 0xff
  (((b2 <<< 8) ||| ((v >>> 8) &&& 0xff)) ^^^ (b2 >>> 4) ^^^ (b2 <<< 3)) &&& 0xffff

/-- `Crc::accum_bytes`: fold each byte in order. -/
def crcAccumBytes (v : Nat) (bs : List Nat) : Nat :=
  bs.foldl crcAccum v

/-- `Crc::lsb`: low byte of the complemented (16-bit NOT) accumulator. -/
def crcLsb (v : Nat) : Nat :=
  (v ^^^ 0xffff) &&& 0xff

/-- `Crc::msb`: high byte of the complemented (16-bit NOT) accumulator. -/
def crcMsb (v : Nat) : Nat :=
  ((v ^^^ 0xffff) >>> 8) &&& 0xff

/-- `Crc::accum_crc`: append both complement bytes (LSB first) through `accum`;
both bytes are taken from the accumulator value before either is folded in. -/
def crcAccumCrc (v : Nat) : Nat :=
  crcAccum (crcAccum v (crcLsb v)) (crcMsb v)

theorem shiftRight_xor_distrib (a b n : Nat) :
    (a ^^^ b) >>> n = (a >>> n) ^^^ (b >>> n) :=
  Nat.eq_of_testBit_eq fun i => by simp

/-- Folding in the complement of the accumulator's low byte produces the
fold-byte `0xFF`, so the new accumulator depends only on the old high byte. -/
theorem crcAccum_lsb (v : Nat) :
    crcAccum v (crcLsb v) = ((0xf00 ||| ((v >>> 8) &&& 0xff)) ^^^ 0x78) &&& 0xffff := by
  have e0 : ((v ^^^ 0xffff) &&& 0xff) &&& 0xff = (v &&& 0xff) ^^^ 0xff := by
    rw [Nat.and_assoc]
    have h255 : (0xff &&& 0xff : Nat) = 0xff := by decide
    rw [h255, Nat.and_xor_distrib_right]
    have hmask : (0xffff &&& 0xff : Nat) = 0xff := by decide
    rw [hmask]
  have e1 : ((v &&& 0xff) ^^^ 0xff) ^^^ (v &&& 0xff) = 0xff := by
    rw [Nat.xor_comm (v &&& 0xff) 0xff, Nat.xor_assoc, Nat.xor_self, Nat.xor_zero]
  have hs : (0xff &&& 0xff : Nat) = 0xff := by decide
  simp only [crcAccum, crcLsb, e0, e1, hs]
  have hc : ((0xff ^^^ (0xff : Nat) <<< 4) &&& 0xff) = 15 := by decide
  rw [hc]
  have h1 : (15 : Nat) <<< 8 = 3840 := by decide
  have h2 : (15 : Nat) >>> 4 = 0 := by decide
  have h3 : (15 : Nat) <<< 3 = 120 := by decide
  rw [h1, h2, h3, Nat.xor_zero]

/-- The complement's high byte in terms of the accumulator's high byte. -/
theorem crcMsb_eq (v : Nat) : crcMsb v = ((v >>> 8) &&& 0xff) ^^^ 0xff := by
  simp only [crcMsb, shiftRight_xor_distrib, Nat.and_xor_distrib_right]
  have h1 : (0xffff : Nat) >>> 8 &&& 0xff = 0xff := by decide
  rw [h1]

set_option maxRecDepth 2000 in
theorem crcAccum_after_lsb :
    ∀ h < 256, crcAccum (((0xf00 ||| h) ^^^ 0x78) &&& 0xffff) (h ^^^ 0xff) = CRC_GOOD := by
  decide

/-- Folding in the two complement bytes of any accumulator value always lands
on the magic residue `CRC_GOOD`. -/
theorem crcAccumCrc_eq_good (v : Nat) : crcAccumCrc v = CRC_GOOD := by
  have h8 : (v >>> 8) &&& 0xff < 256 := Nat.lt_succ_of_le Nat.and_le_right
  unfold crcAccumCrc
  rw [crcAccum_lsb, crcMsb_eq]
  exact crcAccum_after_lsb _ h8

/-- C2: CRC identity. For every byte sequence `bs`, after `Crc::reset()`
(accumulator `0xFFFF`), `accum_bytes(bs)`, then `accum_crc()`, the
accumulator equals `CRC_GOOD = 0xF0B8`. -/
theorem crc_identity (bs : List Nat) :
    crcAccumCrc (crcAccumBytes CRC_INIT bs) = CRC_GOOD :=
  crcAccumCrc_eq_good _

/-! ### Framing constants and the raw packet parser, from src/rawpacket.rs -/

def SOF : Nat := 0x7e

def ESC : Nat := 0x7d

def ESC_FLIP : Nat := 0x20

inductive EscapeState
  | Normal
  | Escaping
deriving DecidableEq, Repr

inductive FrameState
  | New
  | Collecting
deriving DecidableEq, Repr

/-- The state of `RawPacketParser`, together with the `PacketBuffer` it
borrows: `packet` is the buffer's accumulated contents and `capacity` its
fixed capacity. -/
structure RawPacketParser where
  header : Nat
  crcVal : Nat
  escape : EscapeState
  frame : FrameState
  packet : List Nat
  capacity : Nat
deriving DecidableEq, Repr

inductive RawParseResult
  | RawPacketReceived (header : Nat)
  | AbortedPacket
  | PacketTooSmall
  | CrcError (rcvd : Nat)
  | MoreDataNeeded
deriving DecidableEq, Repr

/-- `RawPacketParser::new` over a fresh (empty) buffer of capacity `cap`. -/
def RawPacketParser.new (cap : Nat) : RawPacketParser :=
  { header := 0, crcVal := CRC_INIT, escape := .Normal, frame := .New
    packet := [], capacity := cap }

/-- `RawPacketParser::reset`: reset the CRC, the escape state and the
buffer; the header and the frame state are untouched. -/
def RawPacketParser.reset (s : RawPacketParser) : RawPacketParser :=
  { s with crcVal := CRC_INIT, escape := .Normal, packet := [] }

/-- `PacketBuffer::remove_crc` (default implementation in src/traits.rs,
identical in the test buffer of src/rawpacket.rs): pull the last two bytes
off the buffer, LSB first, and return them as a 16-bit value. -/
def removeCrc (packet : List Nat) : Nat × List Nat :=
  if packet.length < 2 then (0, packet)
  else
    let n := packet.length - 2
    ((packet.getD (n + 1) 0 <<< 8) ||| packet.getD n 0, packet.take n)

/-- The common tail of `RawPacketParser::parse_u8` reached with a data byte
(after SOF/ESC dispatch): start a new frame or append to the current one,
then fold the byte into the CRC. -/
def parseData (s : RawPacketParser) (b : Nat) : RawPacketParser :=
  let s1 :=
    if s.frame = .New then
      { s.reset with header := b, frame := .Collecting }
    else if s.packet.length < s.capacity then
      { s with packet := s.packet ++ [b] }
    else
      s.reset
  { s1 with crcVal := crcAccum s1.crcVal b }

/-- `RawPacketParser::parse_u8`: feed a single byte. -/
def parse_u8 (s : RawPacketParser) (b : Nat) : RawPacketParser × RawParseResult :=
  if s.escape = .Escaping then
    let s1 := { s with escape := .Normal }
    if b = SOF then
      ({ s1.reset with frame := .New }, .AbortedPacket)
    else
      (parseData s1 (b ^^^ ESC_FLIP), .MoreDataNeeded)
  else if b = SOF then
    if s.frame = .Collecting then
      let s1 := { s with frame := .New }
      if s1.packet.length < 2 then
        (s1, .PacketTooSmall)
      else
        let rc := removeCrc s1.packet
        let s2 := { s1 with packet := rc.2 }
        if s2.crcVal ≠ CRC_GOOD then
          (s2, .CrcError rc.1)
        else
          (s2, .RawPacketReceived s2.header)
    else
      (s, .MoreDataNeeded)
  else if b = ESC then
    ({ s with escape := .Escaping }, .MoreDataNeeded)
  else
    (parseData s b, .MoreDataNeeded)

/-- Feed a list of bytes, collecting every per-byte result. -/
def parseBytesAll : RawPacketParser → List Nat → RawPacketParser × List RawParseResult
  | s, [] => (s, [])
  | s, b :: bs =>
    let p := parse_u8 s b
    let q := parseBytesAll p.1 bs
    (q.1, p.2 :: q.2)

/-! ### Framing writer, from `WritePacket` in src/rawpacket.rs -/

/-- `WritePacket::write_escaped_byte` acting on a (crc, written-bytes)
pair: fold the pre-escape byte into the CRC, then write it, escaped if it
collides with SOF or ESC. -/
def write_escaped_byte (st : Nat × List Nat) (b : Nat) : Nat × List Nat :=
  let c := crcAccum st.1 b
  if b = ESC ∨ b = SOF then
    (c, st.2 ++ [ESC, b ^^^ ESC_FLIP])
  else
    (c, st.2 ++ [b])

/-- `WritePacket::write_packet_data`: the full byte stream written for one
frame: SOF, escaped header, escaped payload, escaped CRC (LSB first, both
bytes taken before either is folded back in), SOF. -/
def write_packet_data (header : Nat) (bs : List Nat) : List Nat :=
  let st1 := write_escaped_byte (CRC_INIT, [SOF]) header
  let st2 := bs.foldl write_escaped_byte st1
  let st3 := write_escaped_byte st2 (crcLsb st2.1)
  let st4 := write_escaped_byte st3 (crcMsb st2.1)
  st4.2 ++ [SOF]

/-- The bytes `write_escaped_byte` puts on the wire for one data byte. -/
def escapeByte (b : Nat) : List Nat :=
  if b = ESC ∨ b = SOF then [ESC, b ^^^ ESC_FLIP] else [b]

/-- The CRC accumulated over a frame's header and payload. -/
def frameCrc (h : Nat) (bs : List Nat) : Nat :=
  crcAccumBytes CRC_INIT (h :: bs)

/-- A frame's on-wire bytes after the opening SOF. -/
def frameBody (h : Nat) (bs : List Nat) : List Nat :=
  escapeByte h ++ bs.flatMap escapeByte ++ escapeByte (crcLsb (frameCrc h bs))
    ++ escapeByte (crcMsb (frameCrc h bs)) ++ [SOF]

/-- Parser state after a whole valid frame for `(h, P)` has been consumed:
back in `New`/`Normal`, CRC at the good residue, buffer holding exactly the
payload. -/
def donePacket (cap h : Nat) (P : List Nat) : RawPacketParser :=
  { header := h, crcVal := CRC_GOOD, escape := .Normal, frame := .New
    packet := P, capacity := cap }

theorem write_escaped_byte_eq (c : Nat) (out : List Nat) (b : Nat) :
    write_escaped_byte (c, out) b = (crcAccum c b, out ++ escapeByte b) := by
  unfold write_escaped_byte escapeByte
  split <;> rfl

theorem foldl_write_escaped_byte (bs : List Nat) (c : Nat) (out : List Nat) :
    bs.foldl write_escaped_byte (c, out)
      = (crcAccumBytes c bs, out ++ bs.flatMap escapeByte) := by
  induction bs generalizing c out with
  | nil => simp [crcAccumBytes]
  | cons b bs ih =>
    simp only [List.foldl_cons, write_escaped_byte_eq, List.flatMap_cons]
    rw [ih]
    simp [crcAccumBytes, List.append_assoc]

theorem write_packet_data_eq (h : Nat) (bs : List Nat) :
    write_packet_data h bs = SOF :: frameBody h bs := by
  unfold write_packet_data frameBody frameCrc
  simp only [write_escaped_byte_eq, foldl_write_escaped_byte]
  simp [crcAccumBytes, List.append_assoc]

theorem parseBytesAll_append (s : RawPacketParser) (xs ys : List Nat) :
    parseBytesAll s (xs ++ ys)
      = ((parseBytesAll (parseBytesAll s xs).1 ys).1,
         (parseBytesAll s xs).2 ++ (parseBytesAll (parseBytesAll s xs).1 ys).2) := by
  induction xs generalizing s with
  | nil => simp [parseBytesAll]
  | cons b xs ih => simp [parseBytesAll, ih]

theorem parse_u8_capacity (s : RawPacketParser) (b : Nat) :
    (parse_u8 s b).1.capacity = s.capacity := by
  unfold parse_u8 parseData RawPacketParser.reset
  dsimp only
  repeat' split
  all_goals rfl

theorem parseBytesAll_capacity (s : RawPacketParser) (bs : List Nat) :
    (parseBytesAll s bs).1.capacity = s.capacity := by
  induction bs generalizing s with
  | nil => rfl
  | cons b bs ih => rw [parseBytesAll, ih, parse_u8_capacity]

/-- In `New`/`Normal` state, the escaped encoding of any header byte is
consumed silently and starts a frame: the parser resets, latches the header
and moves to `Collecting`. -/
theorem parse_header (s : RawPacketParser) (h : Nat)
    (hf : s.frame = .New) (he : s.escape = .Normal) :
    parseBytesAll s (escapeByte h)
      = ({ header := h, crcVal := crcAccum CRC_INIT h, escape := .Normal,
           frame := .Collecting, packet := [], capacity := s.capacity },
         List.replicate (escapeByte h).length .MoreDataNeeded) := by
  have hx1 : (0x5d ^^^ 0x20 : Nat) = 0x7d := by decide
  have hx2 : (0x5e ^^^ 0x20 : Nat) = 0x7e := by decide
  unfold escapeByte
  by_cases hb : h = ESC ∨ h = SOF
  · rcases hb with hb | hb <;> subst hb <;>
      simp [parseBytesAll, parse_u8, parseData, RawPacketParser.reset, hf, he,
        SOF, ESC, ESC_FLIP, hx1, hx2]
  · push_neg at hb
    simp [parseBytesAll, parse_u8, parseData, RawPacketParser.reset, hf, he,
      hb.1, hb.2]

/-- In `Collecting`/`Normal` state with room in the buffer, the escaped
encoding of any data byte is consumed silently: the byte is appended and
folded into the CRC. -/
theorem parse_payload_byte (s : RawPacketParser) (b : Nat)
    (hf : s.frame = .Collecting) (he : s.escape = .Normal)
    (hcap : s.packet.length < s.capacity) :
    parseBytesAll s (escapeByte b)
      = ({ s with packet := s.packet ++ [b], crcVal := crcAccum s.crcVal b },
         List.replicate (escapeByte b).length .MoreDataNeeded) := by
  have hx1 : (0x5d ^^^ 0x20 : Nat) = 0x7d := by decide
  have hx2 : (0x5e ^^^ 0x20 : Nat) = 0x7e := by decide
  unfold escapeByte
  by_cases hb : b = ESC ∨ b = SOF
  · rcases hb with hb | hb <;> subst hb <;>
      simp [parseBytesAll, parse_u8, parseData, RawPacketParser.reset, hf, he,
        hcap, SOF, ESC, ESC_FLIP, hx1, hx2]
  · push_neg at hb
    simp [parseBytesAll, parse_u8, parseData, RawPacketParser.reset, hf, he,
      hcap, hb.1, hb.2]

/-- In `Collecting`/`Normal` state with enough room, an escaped payload is
consumed silently, appended in order, and folded into the CRC. -/
theorem parse_payload (s : RawPacketParser) (bs : List Nat)
    (hf : s.frame = .Collecting) (he : s.escape = .Normal)
    (hcap : s.packet.length + bs.length ≤ s.capacity) :
    parseBytesAll s (bs.flatMap escapeByte)
      = ({ s with packet := s.packet ++ bs, crcVal := crcAccumBytes s.crcVal bs },
         List.replicate (bs.flatMap escapeByte).length .MoreDataNeeded) := by
  induction bs generalizing s with
  | nil => simp [parseBytesAll, crcAccumBytes]
  | cons b bs ih =>
    rw [List.flatMap_cons, parseBytesAll_append,
      parse_payload_byte s b hf he (by simp at hcap; omega)]
    rw [ih _ (by simpa using hf) (by simpa using he) (by simp at hcap ⊢; omega)]
    simp only [crcAccumBytes, List.foldl_cons, List.append_assoc, List.cons_append,
      List.nil_append, List.flatMap_cons, List.length_append, ← List.replicate_add]

/-- `remove_crc` on a buffer ending in two CRC bytes: the buffer shrinks by
two and the removed bytes are read LSB first (lower index = low-order byte). -/
theorem removeCrc_append (P : List Nat) (lo hi : Nat) :
    removeCrc (P ++ [lo, hi]) = ((hi <<< 8) ||| lo, P) := by
  unfold removeCrc
  have hlen : (P ++ [lo, hi]).length = P.length + 2 := by simp
  rw [hlen, if_neg (by omega)]
  have h2 : P.length + 2 - 2 = P.length := by omega
  have hgd1 : (P ++ [lo, hi]).getD (P.length + 1) 0 = hi := by
    rw [List.getD_eq_getElem?_getD, List.getElem?_append_right (by omega)]
    simp
  have hgd0 : (P ++ [lo, hi]).getD P.length 0 = lo := by
    rw [List.getD_eq_getElem?_getD, List.getElem?_append_right (by omega)]
    simp
  simp only [h2, hgd0, hgd1, List.take_left]

/-- A non-escaped SOF in `Collecting` state with at least two buffered
bytes: strip the trailing CRC pair (LSB first) and report either a CRC
error or the received packet, depending on the CRC residue. -/
theorem parse_close (s : RawPacketParser) (P : List Nat) (lo hi : Nat)
    (hf : s.frame = .Collecting) (he : s.escape = .Normal)
    (hp : s.packet = P ++ [lo, hi]) :
    parse_u8 s SOF
      = ({ s with frame := .New, packet := P },
         if s.crcVal = CRC_GOOD then .RawPacketReceived s.header
         else .CrcError ((hi <<< 8) ||| lo)) := by
  unfold parse_u8
  rw [if_neg (by simp [he]), if_pos rfl, if_pos (by simp [hf])]
  simp only [hp, removeCrc_append]
  rw [if_neg (by simp)]
  by_cases hcrc : s.crcVal = CRC_GOOD
  · rw [if_pos hcrc, if_neg (by simp [hcrc])]
  · rw [if_neg hcrc, if_pos (by simp [hcrc])]

/-- From any `New`/`Normal` state (dirty CRC and buffer allowed), the body
of a valid frame for `(h, P)` — escaped header, escaped payload, escaped
CRC pair, closing SOF — parses silently and ends with
`RawPacketReceived h`, leaving exactly `P` in the buffer. -/
theorem parse_frameBody (s : RawPacketParser) (h : Nat) (P : List Nat)
    (hf : s.frame = .New) (he : s.escape = .Normal)
    (hcap : P.length + 2 ≤ s.capacity) :
    parseBytesAll s (frameBody h P)
      = (donePacket s.capacity h P,
         List.replicate ((frameBody h P).length - 1) .MoreDataNeeded
           ++ [.RawPacketReceived h]) := by
  have hfc : frameCrc h P = crcAccumBytes (crcAccum CRC_INIT h) P := by
    simp [frameCrc, crcAccumBytes]
  set lsb := crcLsb (frameCrc h P) with hlsb
  set msb := crcMsb (frameCrc h P) with hmsb
  set sA : RawPacketParser :=
    { header := h, crcVal := crcAccum CRC_INIT h, escape := .Normal,
      frame := .Collecting, packet := [], capacity := s.capacity } with hsA
  set sB : RawPacketParser :=
    { header := h, crcVal := crcAccumBytes (crcAccum CRC_INIT h) P,
      escape := .Normal, frame := .Collecting, packet := P,
      capacity := s.capacity } with hsB
  set sC : RawPacketParser :=
    { header := h, crcVal := crcAccum (crcAccumBytes (crcAccum CRC_INIT h) P) lsb,
      escape := .Normal, frame := .Collecting, packet := P ++ [lsb],
      capacity := s.capacity } with hsC
  set sD : RawPacketParser :=
    { header := h,
      crcVal := crcAccum (crcAccum (crcAccumBytes (crcAccum CRC_INIT h) P) lsb) msb,
      escape := .Normal, frame := .Collecting, packet := P ++ [lsb, msb],
      capacity := s.capacity } with hsD
  have e1 : parseBytesAll s (escapeByte h)
      = (sA, List.replicate (escapeByte h).length .MoreDataNeeded) :=
    parse_header s h hf he
  have e2 : parseBytesAll sA (P.flatMap escapeByte)
      = (sB, List.replicate (P.flatMap escapeByte).length .MoreDataNeeded) := by
    rw [parse_payload sA P rfl rfl (by simp [hsA]; omega)]
    all_goals simp [hsA, hsB]
  have e3 : parseBytesAll sB (escapeByte lsb)
      = (sC, List.replicate (escapeByte lsb).length .MoreDataNeeded) := by
    rw [parse_payload_byte sB lsb rfl rfl (by simp [hsB]; omega)]
  have e4 : parseBytesAll sC (escapeByte msb)
      = (sD, List.replicate (escapeByte msb).length .MoreDataNeeded) := by
    rw [parse_payload_byte sC msb rfl rfl (by simp [hsC]; omega)]
    all_goals simp [hsC, hsD]
  have hcrcx : crcAccum (crcAccum (crcAccumBytes (crcAccum CRC_INIT h) P) lsb) msb
      = CRC_GOOD := by
    rw [hlsb, hmsb, ← hfc]
    exact crcAccumCrc_eq_good (frameCrc h P)
  have hcrc : sD.crcVal = CRC_GOOD := hcrcx
  have e5 : parseBytesAll sD [SOF] = (donePacket s.capacity h P,
      [RawParseResult.RawPacketReceived h]) := by
    simp only [parseBytesAll]
    rw [parse_close sD P lsb msb rfl rfl rfl, if_pos hcrc]
    simp [hsD, donePacket, hcrcx]
  unfold frameBody
  rw [← hlsb, ← hmsb]
  simp only [parseBytesAll_append, e1, e2, e3, e4, e5]
  simp only [Prod.mk.injEq, List.append_assoc, List.nil_append, ← List.replicate_add]
  refine ⟨trivial, ?_⟩
  congr 1
  congr 1
  simp [List.length_append]
  omega

/-- C1: Frame round-trip. For every header byte `h` and payload `P` that
fits in the receive buffer alongside the two CRC bytes, feeding the stream
produced by `write_packet_data(h, P)` into a fresh `RawPacketParser`
returns `MoreDataNeeded` for every byte before the final SOF and
`RawPacketReceived h` on the final SOF, with the receive buffer then
holding exactly `P`. -/
theorem frame_roundtrip (cap h : Nat) (P : List Nat) (hh : h < 256)
    (hP : ∀ b ∈ P, b < 256) (hcap : P.length + 2 ≤ cap) :
    parseBytesAll (RawPacketParser.new cap) (write_packet_data h P)
      = (donePacket cap h P,
         List.replicate ((write_packet_data h P).length - 1) .MoreDataNeeded
           ++ [.RawPacketReceived h])
    ∧ (parseBytesAll (RawPacketParser.new cap) (write_packet_data h P)).1.packet = P := by
  have hsof : parse_u8 (RawPacketParser.new cap) SOF
      = (RawPacketParser.new cap, .MoreDataNeeded) := by
    unfold parse_u8
    rw [if_neg (by simp [RawPacketParser.new]), if_pos rfl,
      if_neg (by simp [RawPacketParser.new])]
  have hbody := parse_frameBody (RawPacketParser.new cap) h P rfl rfl (by simpa)
  rw [write_packet_data_eq]
  have hcons : parseBytesAll (RawPacketParser.new cap) (SOF :: frameBody h P)
      = ((parseBytesAll (RawPacketParser.new cap) (frameBody h P)).1,
         .MoreDataNeeded :: (parseBytesAll (RawPacketParser.new cap) (frameBody h P)).2) := by
    simp [parseBytesAll, hsof]
  rw [hcons, hbody]
  refine ⟨?_, rfl⟩
  simp only [RawPacketParser.new, Prod.mk.injEq]
  refine ⟨trivial, ?_⟩
  have hlen : (SOF :: frameBody h P).length - 1 = ((frameBody h P).length - 1) + 1 := by
    have h1 : 1 ≤ (frameBody h P).length := by
      simp [frameBody]
      omega
    simp
    omega
  rw [hlen, List.replicate_succ, List.cons_append]


theorem frame_roundtrip_witness :
    (0xc0 : Nat) < 256 ∧ (∀ b ∈ [(0x11 : Nat)], b < 256)
      ∧ [(0x11 : Nat)].length + 2 ≤ 256
      ∧ (parseBytesAll (RawPacketParser.new 256) (write_packet_data 0xc0 [0x11])).1.packet
          = [0x11] :=
  ⟨by decide, by decide, by decide,
    (frame_roundtrip 256 0xc0 [0x11] (by decide) (by decide) (by decide)).2⟩

/-- After feeding a non-escaped byte stream's SOF from any state, the parser
is in `New`/`Normal` with its capacity unchanged. -/
theorem parse_sof_state (s : RawPacketParser) :
    (parse_u8 s SOF).1.frame = .New ∧ (parse_u8 s SOF).1.escape = .Normal
      ∧ (parse_u8 s SOF).1.capacity = s.capacity := by
  unfold parse_u8 parseData RawPacketParser.reset
  dsimp only
  cases he : s.escape <;> cases hf : s.frame <;> simp [he, hf] <;>
    repeat' split <;> simp_all

/-- From any reachable parser state, one full valid frame (opening SOF,
body, closing SOF) ends with `RawPacketReceived h` and leaves the parser in
the done state with exactly `P` buffered. -/
theorem parse_wire_frame (s : RawPacketParser) (h : Nat) (P : List Nat)
    (hcap : P.length + 2 ≤ s.capacity) :
    parseBytesAll s (write_packet_data h P)
      = (donePacket s.capacity h P,
         (parse_u8 s SOF).2
           :: (List.replicate ((frameBody h P).length - 1) .MoreDataNeeded
                ++ [.RawPacketReceived h])) := by
  obtain ⟨h1, h2, h3⟩ := parse_sof_state s
  have hbody := parse_frameBody (parse_u8 s SOF).1 h P h1 h2 (by omega)
  rw [write_packet_data_eq]
  show parseBytesAll s (SOF :: frameBody h P) = _
  rw [parseBytesAll]
  rw [hbody, h3]


/-- C8: Abort atomicity. Whenever an escape is pending, feeding SOF returns
`AbortedPacket` (and emits nothing, as `parse_u8` writes no bytes), resets
the receive state — frame `New`, escape `Normal`, CRC reinitialized, buffer
emptied — and any subsequent valid frame then parses exactly as on a
freshly constructed parser. -/
theorem abort_atomicity (s : RawPacketParser) (hesc : s.escape = .Escaping) :
    parse_u8 s SOF
      = ({ s with escape := .Normal, frame := .New, crcVal := CRC_INIT,
                  packet := [] }, .AbortedPacket)
    ∧ ∀ h P, P.length + 2 ≤ s.capacity →
        parseBytesAll
            ({ s with escape := .Normal, frame := .New, crcVal := CRC_INIT,
                        packet := [] } : RawPacketParser) (write_packet_data h P)
          = parseBytesAll (RawPacketParser.new s.capacity) (write_packet_data h P) := by
  constructor
  · simp [parse_u8, RawPacketParser.reset, hesc]
  · intro h P hcap
    rw [parse_wire_frame _ h P (by simpa using hcap),
      parse_wire_frame _ h P (by simp [RawPacketParser.new]; omega)]
    simp [parse_u8, RawPacketParser.new]

theorem abort_atomicity_witness :
    parse_u8 { header := 0, crcVal := CRC_INIT, escape := .Escaping,
                 frame := .Collecting, packet := [0x11], capacity := 256 } SOF
      = ({ header := 0, crcVal := CRC_INIT, escape := .Normal, frame := .New,
                  packet := [], capacity := 256 }, .AbortedPacket) :=
  (abort_atomicity _ rfl).1

/-- C9 as stated is false: arbitrary bytes preceding a valid frame can
themselves form a complete valid frame. Garbage `7E 00 78 F0 7E` followed
by the valid frame for header `0xC0` yields two `RawPacketReceived`
results, one of them already within the garbage prefix. -/
theorem resync_counterexample :
    (parseBytesAll (RawPacketParser.new 256)
        ([0x7e, 0x00, 0x78, 0xf0, 0x7e] ++ write_packet_data 0xc0 [])).2
      = [.MoreDataNeeded, .MoreDataNeeded, .MoreDataNeeded, .MoreDataNeeded,
         .RawPacketReceived 0x00, .MoreDataNeeded, .MoreDataNeeded,
         .MoreDataNeeded, .MoreDataNeeded, .RawPacketReceived 0xc0] := by
  decide

/-- C9 (amended): resynchronization. For every sequence of arbitrary bytes
followed by one valid encoded frame, the trailing frame is received: the
run ends with `RawPacketReceived h` on the frame's final SOF and the
receive buffer holds exactly `P`. (Arbitrary prefixes may produce further
`RawPacketReceived` results of their own when they embed valid frames.) -/
theorem resync_amended (cap h : Nat) (g P : List Nat) (hh : h < 256)
    (hP : ∀ b ∈ P, b < 256) (hcap : P.length + 2 ≤ cap) :
    ∃ rs, parseBytesAll (RawPacketParser.new cap) (g ++ write_packet_data h P)
      = (donePacket cap h P, rs ++ [.RawPacketReceived h]) := by
  rw [parseBytesAll_append]
  have hc : (parseBytesAll (RawPacketParser.new cap) g).1.capacity = cap := by
    rw [parseBytesAll_capacity]
    rfl
  rw [parse_wire_frame _ h P (by rw [hc]; exact hcap)]
  refine ⟨(parseBytesAll (RawPacketParser.new cap) g).2
    ++ ((parse_u8 (parseBytesAll (RawPacketParser.new cap) g).1 SOF).2
        :: List.replicate ((frameBody h P).length - 1) .MoreDataNeeded), ?_⟩
  rw [hc]
  simp [List.append_assoc]

theorem resync_amended_witness :
    ∃ rs, parseBytesAll (RawPacketParser.new 256)
        ([0x42] ++ write_packet_data 0xc0 [0x11])
      = (donePacket 256 0xc0 [0x11], rs ++ [.RawPacketReceived 0xc0]) :=
  resync_amended 256 0xc0 [0x42] [0x11] (by decide) (by decide) (by decide)


/-! ### Link engine, from src/lib.rs (with the packet classifier modelled
from the spec, since the `packet.rs` module that src/src/lib.rs imports —
`PacketParser`, `PacketType`, `PacketTypeResult`, `SEQ_MASK` — is not the
one present under src) -/

inductive ConnectState
  | Disconnected
  | SentSyn0
  | SentSyn1
  | Connected
deriving DecidableEq, Repr

inductive ParseResult
  | UserPacket
  | AbortedPacket
  | PacketTooSmall
  | CrcError (rcvd : Nat)
  | MoreDataNeeded
deriving DecidableEq, Repr

def SEQ_INIT : Nat := 0

/-- Modelled from the spec: `SEQ_MASK`, imported by src/src/lib.rs from the
missing `packet.rs` version; the spec fixes sequence numbers to the low six
bits of the header. -/
def SEQ_MASK : Nat := 0x3f

/-- `FrameType`: the top two bits of the header byte. -/
inductive FrameType
  | USR
  | RTX
  | NAK
  | SYN
deriving DecidableEq, Repr

def FrameType.toNat : FrameType → Nat
  | .USR => 0x00
  | .RTX => 0x40
  | .NAK => 0x80
  | .SYN => 0xc0

/-- `SeqSyn`: the handshake kind carried in the low bits of a SYN header. -/
inductive SeqSyn
  | SYN0
  | SYN1
  | SYN2
  | DIS
deriving DecidableEq, Repr

def SeqSyn.toNat : SeqSyn → Nat
  | .SYN0 => 0
  | .SYN1 => 1
  | .SYN2 => 2
  | .DIS => 3

structure Transmitter where
  connect_state : ConnectState
  rx_seq : Nat
  tx_seq : Nat
deriving DecidableEq, Repr

def Transmitter.new : Transmitter :=
  { connect_state := .Disconnected, rx_seq := SEQ_INIT, tx_seq := SEQ_INIT }

/-- `Transmitter::next_frame_seq`: `(seq + 1) & SEQ_MASK`. -/
def next_frame_seq (seq : Nat) : Nat :=
  (seq + 1) &&& SEQ_MASK

/-- `Transmitter::transmit_control_packet`: header from frame type and
masked sequence, empty payload. -/
def transmit_control_packet (ft : FrameType) (seq : Nat) : List Nat :=
  write_packet_data (ft.toNat ||| (seq &&& SEQ_MASK)) []

def transmit_nak (seq : Nat) : List Nat :=
  transmit_control_packet .NAK seq

def transmit_dis : List Nat :=
  transmit_control_packet .SYN SeqSyn.DIS.toNat

def transmit_syn0 : List Nat :=
  transmit_control_packet .SYN SeqSyn.SYN0.toNat

def transmit_syn1 : List Nat :=
  transmit_control_packet .SYN SeqSyn.SYN1.toNat

def transmit_syn2 : List Nat :=
  transmit_control_packet .SYN SeqSyn.SYN2.toNat

/-- `Transmitter::transmit_history_from_seq` is a stub (TODO) in the
source: it writes nothing. -/
def transmit_history_from_seq : List Nat := []

/-- `Transmitter::handle_frame_usr_rtx`: returns the new transmitter state,
the bytes written in response, and the parse result handed to the caller. -/
def Transmitter.handle_frame_usr_rtx (t : Transmitter) (ft : FrameType)
    (seq : Nat) : Transmitter × List Nat × ParseResult :=
  match t.connect_state with
  | .Disconnected => (t, transmit_dis, .MoreDataNeeded)
  | .SentSyn0 => (t, transmit_syn0, .MoreDataNeeded)
  | .SentSyn1 => (t, transmit_syn1, .MoreDataNeeded)
  | .Connected =>
    if seq ≠ t.rx_seq then
      if ft = .USR then
        (t, transmit_nak t.rx_seq, .MoreDataNeeded)
      else
        (t, [], .MoreDataNeeded)
    else
      ({ t with rx_seq := next_frame_seq t.rx_seq }, [], .UserPacket)

/-- `Transmitter::handle_frame_nak` is a stub (TODO) in the source. -/
def Transmitter.handle_frame_nak (t : Transmitter) (seq : Nat) :
    Transmitter × List Nat :=
  (t, [])

def Transmitter.handle_frame_syn0 (t : Transmitter) : Transmitter × List Nat :=
  ({ connect_state := .SentSyn1, rx_seq := SEQ_INIT, tx_seq := SEQ_INIT },
   transmit_syn1)

def Transmitter.handle_frame_syn1 (t : Transmitter) : Transmitter × List Nat :=
  if t.connect_state = .Disconnected then
    (t, transmit_dis)
  else
    ({ t with connect_state := .Connected },
     transmit_syn2 ++ (if t.tx_seq ≠ SEQ_INIT then transmit_history_from_seq else []))

def Transmitter.handle_frame_syn2 (t : Transmitter) : Transmitter × List Nat :=
  if t.connect_state = .Disconnected then
    (t, transmit_dis)
  else if t.connect_state = .SentSyn0 then
    (t, transmit_syn0)
  else
    ({ t with connect_state := .Connected },
     if t.tx_seq ≠ SEQ_INIT then transmit_history_from_seq else [])

def Transmitter.handle_frame_disconnect (t : Transmitter) : Transmitter :=
  { t with connect_state := .Disconnected }

/-- The decoded packet variants. -/
inductive PacketType
  | USR (seq : Nat)
  | RTX (seq : Nat)
  | NAK (seq : Nat)
  | Syn0
  | Syn1
  | Syn2
  | Disconnect
deriving DecidableEq, Repr

inductive PacketTypeResult
  | PacketReceived (pt : PacketType)
  | AbortedPacket
  | PacketTooSmall
  | CrcError (rcvd : Nat)
  | MoreDataNeeded
deriving DecidableEq, Repr

/-- `Transmitter::handle_packet`: dispatch one decoded packet. -/
def Transmitter.handle_packet (t : Transmitter) (pt : PacketType) :
    Transmitter × List Nat × ParseResult :=
  match pt with
  | .USR seq => t.handle_frame_usr_rtx .USR seq
  | .RTX seq => t.handle_frame_usr_rtx .RTX seq
  | .NAK seq =>
    let r := t.handle_frame_nak seq
    (r.1, r.2, .MoreDataNeeded)
  | .Syn0 =>
    let r := t.handle_frame_syn0
    (r.1, r.2, .MoreDataNeeded)
  | .Syn1 =>
    let r := t.handle_frame_syn1
    (r.1, r.2, .MoreDataNeeded)
  | .Syn2 =>
    let r := t.handle_frame_syn2
    (r.1, r.2, .MoreDataNeeded)
  | .Disconnect => (t.handle_frame_disconnect, [], .MoreDataNeeded)

/-- Modelled from the spec: the packet classifier (spec section 4.4), part
of the missing `packet.rs` version. A validated header splits as
`type := header & 0xC0` and `low := header & 0x3F`; USR/RTX/NAK carry
`low` as the sequence, SYN maps `low` in {0,1,2,3} to
{Syn0, Syn1, Syn2, Disconnect}, and any other SYN value yields no packet. -/
def classify (header : Nat) : Option PacketType :=
  let t := header &&& 0xc0
  let low := header &&& 0x3f
  if t = 0x00 then some (.USR low)
  else if t = 0x40 then some (.RTX low)
  else if t = 0x80 then some (.NAK low)
  else if low = 0 then some .Syn0
  else if low = 1 then some .Syn1
  else if low = 2 then some .Syn2
  else if low = 3 then some .Disconnect
  else none

/-- Modelled from the spec: `PacketParser::parse_byte` — the raw packet
parser of src/src/rawpacket.rs composed with the classifier; an
unclassifiable header is treated as `MoreDataNeeded`. -/
def parsePacketByte (s : RawPacketParser) (b : Nat) :
    RawPacketParser × PacketTypeResult :=
  let p := parse_u8 s b
  (p.1,
   match p.2 with
   | .RawPacketReceived h =>
     match classify h with
     | some pt => .PacketReceived pt
     | none => .MoreDataNeeded
   | .AbortedPacket => .AbortedPacket
   | .PacketTooSmall => .PacketTooSmall
   | .CrcError n => .CrcError n
   | .MoreDataNeeded => .MoreDataNeeded)

/-- `Context`: the transmitter plus the receive parser (with its borrowed
receive buffer). -/
structure Context where
  tx : Transmitter
  rxParser : RawPacketParser
deriving DecidableEq, Repr

def Context.new (cap : Nat) : Context :=
  { tx := Transmitter.new, rxParser := RawPacketParser.new cap }

/-- `Context::connect`: reset both sides, emit SYN0, move to `SentSyn0`. -/
def Context.connect (c : Context) : Context × List Nat :=
  ({ tx := { connect_state := .SentSyn0, rx_seq := SEQ_INIT, tx_seq := SEQ_INIT },
     rxParser := c.rxParser.reset },
   transmit_syn0)

def Context.is_connected (c : Context) : Bool :=
  decide (c.tx.connect_state = ConnectState.Connected)

/-- `Context::parse_byte`: returns the new context, the bytes written in
response, and the parse result. -/
def Context.parse_byte (c : Context) (b : Nat) : Context × List Nat × ParseResult :=
  let p := parsePacketByte c.rxParser b
  match p.2 with
  | .PacketReceived pt =>
    let r := c.tx.handle_packet pt
    ({ tx := r.1, rxParser := p.1 }, r.2.1, r.2.2)
  | .AbortedPacket => ({ c with rxParser := p.1 }, [], .AbortedPacket)
  | .PacketTooSmall => ({ c with rxParser := p.1 }, [], .PacketTooSmall)
  | .CrcError n => ({ c with rxParser := p.1 }, [], .CrcError n)
  | .MoreDataNeeded => ({ c with rxParser := p.1 }, [], .MoreDataNeeded)

/-- Feed a byte list into a context, concatenating all emitted bytes. -/
def Context.feed : Context → List Nat → Context × List Nat
  | c, [] => (c, [])
  | c, b :: bs =>
    let p := c.parse_byte b
    let q := p.1.feed bs
    (q.1, p.2.1 ++ q.2)

/-- `Context::write_packet`: only when connected, emit `USR | tx_seq` with
the payload and advance `tx_seq`; otherwise do nothing. The transmit
history append is a TODO stub in the source, so no history exists in the
state. -/
def Context.write_packet (c : Context) (data : List Nat) : Context × List Nat :=
  if ¬ c.is_connected then
    (c, [])
  else
    ({ c with tx := { c.tx with tx_seq := next_frame_seq c.tx.tx_seq } },
     write_packet_data (FrameType.USR.toNat ||| c.tx.tx_seq) data)

/-! ### The three remove_crc implementations, from src/packet.rs and
src/traits.rs (`removeCrc` above is the traits.rs default) -/

/-- `Packet::remove_crc` (src/packet.rs): shrink by two, value read LSB
first (lower index is the low-order byte). -/
def Packet.remove_crc (p : List Nat) : Nat × List Nat :=
  if p.length < 2 then (0, p)
  else
    let n := p.length - 2
    ((p.getD (n + 1) 0 <<< 8) ||| p.getD n 0, p.take n)

/-- `UserPacket::remove_crc` (src/packet.rs): shrink by two, but the byte
at the LOWER index is shifted into the high-order position — the opposite
of the other two implementations, despite its own "LSB is transmitted
first" comment. -/
def UserPacket.remove_crc (p : List Nat) : Nat × List Nat :=
  if p.length < 2 then (0, p)
  else
    let n := p.length - 2
    ((p.getD n 0 <<< 8) ||| p.getD (n + 1) 0, p.take n)


def handshakeA1 : Context × List Nat := (Context.new 256).connect

def handshakeB1 : Context × List Nat := (Context.new 256).feed handshakeA1.2

def handshakeA2 : Context × List Nat := handshakeA1.1.feed handshakeB1.2

def handshakeB2 : Context × List Nat := handshakeB1.1.feed handshakeA2.2

/-- C3: Bit-exact three-way handshake. From two fresh contexts, A's
`connect()` resets its sequence numbers, moves A to `SentSyn0` and emits
exactly `7E C0 74 36 7E`; feeding that to B makes B emit exactly
`7E C1 FD 27 7E`; feeding that to A makes A `Connected` and emit exactly
`7E C2 66 15 7E`; feeding that to B makes B `Connected` and emit nothing. -/
theorem handshake_bit_exact :
    handshakeA1.2 = [0x7e, 0xc0, 0x74, 0x36, 0x7e]
    ∧ handshakeA1.1.tx.connect_state = .SentSyn0
    ∧ handshakeA1.1.tx.rx_seq = SEQ_INIT
    ∧ handshakeA1.1.tx.tx_seq = SEQ_INIT
    ∧ handshakeB1.2 = [0x7e, 0xc1, 0xfd, 0x27, 0x7e]
    ∧ handshakeA2.2 = [0x7e, 0xc2, 0x66, 0x15, 0x7e]
    ∧ handshakeA2.1.tx.connect_state = .Connected
    ∧ handshakeB2.2 = []
    ∧ handshakeB2.1.tx.connect_state = .Connected := by
  decide

/-- C4: Connected-state User/Retransmit handling. In `Connected`, a
validated USR or RTX packet with the expected sequence advances `rx_seq`
to `(rx_seq + 1) mod 64`, delivers the payload (result `UserPacket`) and
writes nothing; with an unexpected sequence, USR emits a NAK frame
carrying `rx_seq` and RTX emits nothing, both leaving `rx_seq` unchanged. -/
theorem connected_usr_rtx (t : Transmitter) (ft : FrameType) (seq : Nat)
    (hc : t.connect_state = .Connected) (hft : ft = .USR ∨ ft = .RTX) :
    (seq = t.rx_seq →
      t.handle_frame_usr_rtx ft seq
        = ({ t with rx_seq := (t.rx_seq + 1) % 64 }, [], .UserPacket))
    ∧ (seq ≠ t.rx_seq → ft = .USR →
      t.handle_frame_usr_rtx ft seq
        = (t, write_packet_data (FrameType.NAK.toNat ||| (t.rx_seq &&& SEQ_MASK)) [],
           .MoreDataNeeded))
    ∧ (seq ≠ t.rx_seq → ft = .RTX →
      t.handle_frame_usr_rtx ft seq = (t, [], .MoreDataNeeded)) := by
  have hmod : next_frame_seq t.rx_seq = (t.rx_seq + 1) % 64 := by
    unfold next_frame_seq SEQ_MASK
    have h6 := Nat.and_pow_two_sub_one_eq_mod (t.rx_seq + 1) 6
    norm_num at h6
    exact h6
  refine ⟨?_, ?_, ?_⟩
  · intro hseq
    simp [Transmitter.handle_frame_usr_rtx, hc, hseq, hmod]
  · intro hseq hu
    simp [Transmitter.handle_frame_usr_rtx, hc, hseq, hu, transmit_nak,
      transmit_control_packet]
  · intro hseq hr
    subst hr
    simp [Transmitter.handle_frame_usr_rtx, hc, hseq]

theorem connected_usr_rtx_witness :
    Transmitter.handle_frame_usr_rtx
        { connect_state := .Connected, rx_seq := 5, tx_seq := 9 } .USR 5
      = ({ connect_state := .Connected, rx_seq := 6, tx_seq := 9 }, [],
         .UserPacket) := by
  have h := (connected_usr_rtx
    { connect_state := .Connected, rx_seq := 5, tx_seq := 9 } .USR 5
    rfl (Or.inl rfl)).1 rfl
  simpa using h

/-- C5 evaluates write_packet on a connected context at the payload
"Testing" from the source's own test: the frame `USR | tx_seq` is emitted
and `tx_seq` advances, but the resulting state is unchanged otherwise —
the context holds no transmit history at all (the history append is a TODO
stub in the source), contradicting the claim that the payload is appended
to the transmit history. -/
theorem write_packet_connected_behavior :
    Context.write_packet
        { tx := { connect_state := .Connected, rx_seq := 0, tx_seq := 0 },
          rxParser := RawPacketParser.new 256 }
        [0x54, 0x65, 0x73, 0x74, 0x69, 0x6e, 0x67]
      = ({ tx := { connect_state := .Connected, rx_seq := 0, tx_seq := 1 },
           rxParser := RawPacketParser.new 256 },
         [0x7e, 0x00, 0x54, 0x65, 0x73, 0x74, 0x69, 0x6e, 0x67, 0xc5, 0x5c, 0x7e]) := by
  decide

/-- C6: Frame validation on the closing SOF. A non-escaped SOF in
`Collecting` yields `PacketTooSmall` when fewer than two bytes are
buffered; otherwise the last two bytes leave the buffer and are read LSB
first (lower index is the low-order byte) as `rcvd`, giving
`CrcError rcvd` when the running CRC is not `0xF0B8` and
`RawPacketReceived header` (buffer = payload only) when it is. -/
theorem close_frame_validation (s : RawPacketParser) (P : List Nat)
    (lo hi : Nat) (hf : s.frame = .Collecting) (he : s.escape = .Normal) :
    (s.packet.length < 2 →
      parse_u8 s SOF = ({ s with frame := .New }, .PacketTooSmall))
    ∧ (s.packet = P ++ [lo, hi] → lo < 256 →
      parse_u8 s SOF
        = ({ s with frame := .New, packet := P },
           if s.crcVal = CRC_GOOD then .RawPacketReceived s.header
           else .CrcError (hi * 256 + lo))) := by
  constructor
  · intro hlen
    unfold parse_u8
    rw [if_neg (by simp [he]), if_pos rfl, if_pos (by simp [hf]),
      if_pos (by simpa using hlen)]
  · intro hp hlo
    rw [parse_close s P lo hi hf he hp]
    have hor : (hi <<< 8) ||| lo = hi * 256 + lo := by
      rw [Nat.shiftLeft_eq, Nat.mul_comm hi (2 ^ 8),
        ← Nat.mul_add_lt_is_or (b := lo) (by simpa using hlo) hi]
    rw [hor]

theorem close_frame_validation_witness :
    parse_u8 { header := 0xc0, crcVal := CRC_GOOD, escape := .Normal,
                 frame := .Collecting, packet := [0x11, 0x74, 0x36],
                 capacity := 256 } SOF
      = ({ header := 0xc0, crcVal := CRC_GOOD, escape := .Normal,
           frame := .New, packet := [0x11], capacity := 256 },
         .RawPacketReceived 0xc0) := by
  have h := (close_frame_validation
    { header := 0xc0, crcVal := CRC_GOOD, escape := .Normal,
      frame := .Collecting, packet := [0x11, 0x74, 0x36], capacity := 256 }
    [0x11] 0x74 0x36 rfl rfl).2 rfl (by decide)
  simpa using h

/-- C7: `write_packet` when not connected. In every connection state other
than `Connected`, `write_packet` writes no bytes and leaves the whole
context — `tx_seq`, `rx_seq`, the connection state, and (vacuously, since
none exists) the transmit history — unchanged. -/
theorem write_packet_not_connected (c : Context) (data : List Nat)
    (hc : c.tx.connect_state ≠ .Connected) :
    c.write_packet data = (c, []) := by
  simp [Context.write_packet, Context.is_connected, hc]

theorem write_packet_not_connected_witness :
    (Context.new 256).write_packet [0x11] = (Context.new 256, []) :=
  write_packet_not_connected (Context.new 256) [0x11] (by decide)

/-- C10 fails: the three `remove_crc` implementations do not agree. On the
buffer `[0x01, 0x02]`, `Packet::remove_crc` and the `PacketBuffer`
default both return `0x0201` (LSB first), while `UserPacket::remove_crc`
returns `0x0102` (MSB first), though all three shrink the buffer by two. -/
theorem remove_crc_disagreement :
    Packet.remove_crc [0x01, 0x02] = (0x0201, [])
    ∧ removeCrc [0x01, 0x02] = (0x0201, [])
    ∧ UserPacket.remove_crc [0x01, 0x02] = (0x0102, []) := by
  decide

end SFP
